import Mathlib

/-!
Shallow embedding of the Adafruit MACROPAD macro firmware (`code.py`):
the instruction data model, the press/release instruction interpreter of
the main loop, the encoder-driven profile selection, the game-mode
handoff, profile loading at startup, and `App.switch`.
-/

namespace Macropad

/-- An element of a `MediaCodes` list item: the Python code distinguishes
`int` consumer-control codes from `float` delays (`code.py` 147-152). -/
inductive MediaItem
  | code (c : Int)
  | delay (seconds : Rat)
  deriving DecidableEq, Repr

/-- Fields of a `dict` item (`code.py` 153-167): optional `buttons`,
optional `x`/`y`/`wheel` (read with default 0), optional `tone`,
optional `play`. -/
structure MouseAction where
  buttons : Option Int := none
  x : Option Int := none
  y : Option Int := none
  wheel : Option Int := none
  tone : Option Int := none
  play : Option String := none
  deriving DecidableEq, Repr

/-- One item of a macro sequence, mirroring the runtime type dispatch of
the main loop (`code.py` 136-167): `int`, `float`, `str`, `list`, `dict`. -/
inductive Item
  | keyCode (c : Int)
  | delay (seconds : Rat)
  | typeText (s : String)
  | mediaCodes (codes : List MediaItem)
  | mouseAction (m : MouseAction)
  deriving DecidableEq, Repr

/-- A device/display action emitted by the firmware, one constructor per
side-effecting call in `code.py`. -/
inductive Action
  | press (code : Int)
  | release (code : Int)
  | sleep (seconds : Rat)
  | writeText (text : String)
  | releaseMedia
  | pressMedia (code : Int)
  | mousePress (buttons : Int)
  | mouseRelease (buttons : Int)
  | mouseMove (x y wheel : Int)
  | startTone (freq : Int)
  | stopTone
  | playFile (path : String)
  | releaseAllKeys
  | releaseAllMouse
  | setBannerText (t : String)
  | setBannerFill (c : Nat)
  | setPixel (i : Nat) (c : Nat)
  | setLabel (i : Nat) (t : String)
  | pixelsShow
  | refresh
  | runGame
  | setRotation (r : Nat)
  | setRootGroupMenu
  deriving DecidableEq, Repr

/-- Actions emitted for one sequence item on the press edge
(`code.py` 136-167). -/
def pressItem : Item → List Action
  | .keyCode c => if c ≥ 0 then [.press c] else [.release (-c)]
  | .delay s => [.sleep s]
  | .typeText s => [.writeText s]
  | .mediaCodes codes =>
      codes.flatMap fun mc =>
        match mc with
        | .code c => [.releaseMedia, .pressMedia c]
        | .delay s => [.sleep s]
  | .mouseAction m =>
      (match m.buttons with
       | some b => if b ≥ 0 then [.mousePress b] else [.mouseRelease (-b)]
       | none => []) ++
      [.mouseMove (m.x.getD 0) (m.y.getD 0) (m.wheel.getD 0)] ++
      (match m.tone with
       | some t => if t > 0 then [.stopTone, .startTone t] else [.stopTone]
       | none =>
         match m.play with
         | some p => [.playFile p]
         | none => [])

/-- Actions emitted for one sequence item on the release edge
(`code.py` 169-175): only non-negative `int` items and `dict` items with a
non-negative `buttons` field act. -/
def releaseItem : Item → List Action
  | .keyCode c => if c ≥ 0 then [.release c] else []
  | .mouseAction m =>
      (match m.buttons with
       | some b => if b ≥ 0 then [.mouseRelease b] else []
       | none => [])
  | _ => []

/-- Press-edge processing of a whole sequence (`code.py` 135-167). -/
def pressSequence (seq : List Item) : List Action :=
  seq.flatMap pressItem

/-- Release-edge processing of a whole sequence (`code.py` 168-176): the
per-item walk followed by the unconditional `consumer_control.release()`. -/
def releaseSequence (seq : List Item) : List Action :=
  seq.flatMap releaseItem ++ [.releaseMedia]

/-- One key binding: a `(color, label, sequence)` tuple of a macro file
(`win-firefox.py`); `code.py` reads index 0 as LED color, 1 as label,
2 as the key sequence. -/
structure MacroBinding where
  color : Nat
  label : String
  sequence : List Item
  deriving DecidableEq, Repr, Inhabited

/-- The `appdata` dict consumed by `App.__init__` (`code.py` 26-28). -/
structure AppData where
  name : String
  macros : List MacroBinding
  deriving DecidableEq, Repr, Inhabited

/-- `App.switch` (`code.py` 30-49) as the ordered list of display and
device calls it performs. -/
def switchActions (a : AppData) : List Action :=
  [.setBannerText a.name,
   .setBannerFill (if a.name ≠ "" then 0xFFFFFF else 0x000000)] ++
  ((List.range 12).flatMap fun i =>
    if i < a.macros.length then
      [.setPixel i (a.macros.getD i default).color,
       .setLabel i (a.macros.getD i default).label]
    else
      [.setPixel i 0, .setLabel i ""]) ++
  [.releaseAllKeys, .releaseMedia, .releaseAllMouse, .stopTone,
   .pixelsShow, .refresh]

/-- `GAME_KEY = 11` (`code.py` 21). -/
def GAME_KEY : Nat := 11

/-- The mutable selection state of the main loop: `app_index` and
`last_position` (`code.py` 97-98). -/
structure MachineState where
  appIndex : Nat
  lastPosition : Option Int
  deriving DecidableEq, Repr

/-- `position % len(apps)` (`code.py` 107); Python `%` on a positive
modulus agrees with `Int.emod`. -/
def encoderSelect (position : Int) (numApps : Nat) : Int :=
  position % (numApps : Int)

/-- The encoder-handling block of one loop iteration (`code.py` 104-109):
on a position change, re-select the app index modulo the app count,
switch to (render) that app, and remember the position. -/
def stepEncoder (apps : List AppData) (s : MachineState) (position : Int) :
    MachineState × List Action :=
  if some position ≠ s.lastPosition then
    let j := (encoderSelect position apps.length).toNat
    ({ appIndex := j, lastPosition := some position },
     switchActions (apps.getD j default))
  else
    (s, [])

/-- A key event from `macropad.keys.events.get()`: key number and edge. -/
structure KeyEvent where
  keyNumber : Nat
  pressed : Bool
  deriving DecidableEq, Repr

/-- The key-event handling block of one loop iteration
(`code.py` 112-176).  `gameResult` stands for the value
`dragondrop_game.run_game` would return if the game is started in this
iteration; it is consulted nowhere else. -/
def stepKey (apps : List AppData) (s : MachineState) (ev : KeyEvent)
    (gameResult : String) : MachineState × List Action :=
  if s.appIndex = apps.length - 1 then
    if ev.pressed && ev.keyNumber == GAME_KEY then
      (s, [.runGame] ++
        (if gameResult = "game_ended" then
          [.setRotation 0, .setRootGroupMenu, .refresh]
        else []))
    else
      (s, [])
  else
    let macros := (apps.getD s.appIndex default).macros
    if ev.keyNumber ≥ macros.length then
      (s, [])
    else
      let sequence := (macros.getD ev.keyNumber default).sequence
      if ev.pressed then (s, pressSequence sequence)
      else (s, releaseSequence sequence)

/-- One candidate profile file: its name in `MACRO_FOLDER` and the
outcome of `__import__`-ing it (`ok` with the module's `app` data, or
`error` with the exception text). -/
structure MacroFile where
  filename : String
  result : Except String AppData
  deriving Repr

/-- The filename filter of the load loop (`code.py` 82). -/
def eligible (f : MacroFile) : Bool :=
  f.filename.endsWith ".py" && !(f.filename.startsWith "._")

/-- The diagnostic printed for a file whose import fails
(`code.py` 88), `none` for a file that imports cleanly. -/
def errDiag (f : MacroFile) : Option String :=
  match f.result with
  | .ok _ => none
  | .error e => some ("ERROR in " ++ f.filename ++ ": " ++ e)

/-- One iteration of the profile-loading loop (`code.py` 81-88): an
eligible file that imports successfully appends its app; a failing one
appends one diagnostic and is skipped; an ineligible file is ignored. -/
def loadStep (acc : List AppData × List String) (f : MacroFile) :
    List AppData × List String :=
  if eligible f then
    match f.result with
    | .ok a => (acc.1 ++ [a], acc.2)
    | .error e =>
        (acc.1, acc.2 ++ ["ERROR in " ++ f.filename ++ ": " ++ e])
  else acc

/-- The profile-loading loop (`code.py` 78-88): fold `loadStep` over the
directory listing. Returns the loaded apps and the diagnostics. -/
def loadApps (fs : List MacroFile) : List AppData × List String :=
  fs.foldl loadStep ([], [])

/-- Outcome of startup: either the intentional halt
(`while True: pass` behind the on-screen message, `code.py` 90-94),
or a running system with the loaded apps plus the synthetic
"Dragon Drop" entry (`code.py` 99). -/
inductive StartupResult
  | halted (message : String)
  | running (apps : List AppData)
  deriving Repr

/-- Whether a startup outcome is the intentional full stop. -/
def StartupResult.isHalted : StartupResult → Bool
  | .halted _ => true
  | .running _ => false

/-- Startup after the load loop (`code.py` 90-99): halt when no app
loaded, otherwise append the synthetic game profile. -/
def startup (fs : List MacroFile) : StartupResult :=
  let apps := (loadApps fs).1
  if apps.isEmpty then .halted "NO MACRO FILES FOUND"
  else .running (apps ++ [{ name := "Dragon Drop", macros := [] }])

/-- The release-edge walk never emits a consumer-control release for any
single item; the one `releaseMedia` of a release edge comes only from the
trailing unconditional call. -/
lemma releaseMedia_not_mem_releaseItem (i : Item) :
    Action.releaseMedia ∉ releaseItem i := by
  cases i with
  | keyCode c =>
      by_cases hc : c ≥ 0 <;> simp [releaseItem, hc]
  | mouseAction m =>
      cases hb : m.buttons with
      | none => simp [releaseItem, hb]
      | some b => by_cases hbb : b ≥ 0 <;> simp [releaseItem, hb, hbb]
  | delay s => simp [releaseItem]
  | typeText s => simp [releaseItem]
  | mediaCodes codes => simp [releaseItem]

/-- C1 counterexample: with `CTRL = 0xE0 = 224`, the release edge of the
binding `[KeyCode(CTRL), KeyCode(-CTRL), TypeText "x"]` DOES emit a
release action for CTRL (from the positive `KeyCode(CTRL)` item,
`code.py` 170-172), contrary to the claim that no release action for
CTRL is emitted on the release edge. -/
theorem C1_counterexample :
    Action.release 224 ∈
      releaseSequence [.keyCode 224, .keyCode (-224), .typeText "x"] := by
  decide

/-- C1 amended: for any positive code `ctrl`, the press edge of
`[KeyCode(ctrl), KeyCode(-ctrl), TypeText "x"]` emits exactly
`press(ctrl), release(ctrl), writeText "x"` in that order; the
subsequent release edge emits exactly one `release(ctrl)` — contributed
by the positive `KeyCode(ctrl)` item, the negative item being ignored —
followed by the trailing `releaseMedia`. -/
theorem C1_amended_thm (ctrl : Int) (h : 0 < ctrl) :
    pressSequence [.keyCode ctrl, .keyCode (-ctrl), .typeText "x"] =
      [.press ctrl, .release ctrl, .writeText "x"] ∧
    releaseSequence [.keyCode ctrl, .keyCode (-ctrl), .typeText "x"] =
      [.release ctrl, .releaseMedia] := by
  have h1 : ctrl ≥ 0 := le_of_lt h
  have h2 : ¬(-ctrl ≥ 0) := by omega
  refine ⟨?_, ?_⟩ <;>
    simp [pressSequence, releaseSequence, pressItem, releaseItem, h1, h2]

/-- Witness for C1 amended at `ctrl = 224`. -/
theorem C1_amended_witness :
    pressSequence [.keyCode 224, .keyCode (-224), .typeText "x"] =
      [.press 224, .release 224, .writeText "x"] ∧
    releaseSequence [.keyCode 224, .keyCode (-224), .typeText "x"] =
      [.release 224, .releaseMedia] :=
  C1_amended_thm 224 (by decide)

/-- C2: every `KeyCode(c)` with `c ≥ 0` contained in a binding sequence
contributes `press(c)` to the press edge and `release(c)` to the release
edge (matched pairing, `code.py` 137-139 and 170-172). -/
theorem C2_thm (seq : List Item) (c : Int) (hc : 0 ≤ c)
    (hm : Item.keyCode c ∈ seq) :
    Action.press c ∈ pressSequence seq ∧
    Action.release c ∈ releaseSequence seq := by
  constructor
  · exact List.mem_flatMap.mpr ⟨.keyCode c, hm, by simp [pressItem, hc]⟩
  · exact List.mem_append_left _
      (List.mem_flatMap.mpr ⟨.keyCode c, hm, by simp [releaseItem, hc]⟩)

/-- Witness for C2 at the sequence `[KeyCode 5]`. -/
theorem C2_witness :
    Action.press 5 ∈ pressSequence [.keyCode 5] ∧
    Action.release 5 ∈ releaseSequence [.keyCode 5] :=
  C2_thm [.keyCode 5] 5 (by decide) (by decide)

/-- C3: for every sequence, release-edge processing is the per-item walk
(which itself contains no `releaseMedia`) followed by exactly one
unconditional `releaseMedia` (`code.py` 176); in total the release edge
contains exactly one `releaseMedia`, in last position. -/
theorem C3_thm (seq : List Item) :
    ∃ walk, releaseSequence seq = walk ++ [Action.releaseMedia] ∧
      walk.count Action.releaseMedia = 0 ∧
      (releaseSequence seq).count Action.releaseMedia = 1 := by
  have hz : (seq.flatMap releaseItem).count Action.releaseMedia = 0 := by
    rw [List.count_eq_zero]
    simp only [List.mem_flatMap, not_exists, not_and]
    exact fun i _ => releaseMedia_not_mem_releaseItem i
  refine ⟨seq.flatMap releaseItem, rfl, hz, ?_⟩
  simp [releaseSequence, List.count_append, hz]

/-- C4: on an encoder-position change to `p` with a non-empty registry of
`N` apps, the new app index is exactly the mathematical residue of `p`
modulo `N`: it lies in `[0, N)` and differs from `p` by a multiple of
`N`, for every integer `p`, negative included; the position is
remembered (`code.py` 104-109). -/
theorem C4_thm (apps : List AppData) (s : MachineState) (p : Int)
    (hN : 0 < apps.length) (hch : some p ≠ s.lastPosition) :
    ((stepEncoder apps s p).1.appIndex : Int) = encoderSelect p apps.length ∧
    0 ≤ encoderSelect p apps.length ∧
    encoderSelect p apps.length < apps.length ∧
    (apps.length : Int) ∣ p - encoderSelect p apps.length ∧
    (stepEncoder apps s p).1.lastPosition = some p := by
  have hN0 : (apps.length : Int) ≠ 0 := Int.natCast_ne_zero.mpr hN.ne'
  have hpos : (0 : Int) < (apps.length : Int) := by exact_mod_cast hN
  have hnn : 0 ≤ encoderSelect p apps.length :=
    Int.emod_nonneg p hN0
  refine ⟨?_, hnn, Int.emod_lt_of_pos p hpos, ⟨p / (apps.length : Int), ?_⟩, ?_⟩
  · simp [stepEncoder, hch, Int.toNat_of_nonneg hnn]
  · rw [encoderSelect, Int.emod_def]; ring
  · simp [stepEncoder, hch]

/-- Witness for C4 at `p = -5` with a registry of 3 apps. -/
theorem C4_witness :
    ((stepEncoder (List.replicate 3 default) ⟨0, none⟩ (-5)).1.appIndex : Int) =
      encoderSelect (-5) 3 ∧
    0 ≤ encoderSelect (-5) 3 ∧
    encoderSelect (-5) 3 < 3 ∧
    (3 : Int) ∣ (-5) - encoderSelect (-5) 3 ∧
    (stepEncoder (List.replicate 3 default) ⟨0, none⟩ (-5)).1.lastPosition =
      some (-5) := by
  have := C4_thm (List.replicate 3 default) ⟨0, none⟩ (-5)
    (by decide) (by simp)
  simpa using this

/-- C5: while a non-game profile is active (the app index is not the last
registry slot), a key event whose key number is at least the active
profile's binding count emits no action and leaves the machine state
unchanged (`code.py` 129-130). -/
theorem C5_thm (apps : List AppData) (s : MachineState) (ev : KeyEvent)
    (gameResult : String)
    (hng : s.appIndex ≠ apps.length - 1)
    (hk : ev.keyNumber ≥ (apps.getD s.appIndex default).macros.length) :
    stepKey apps s ev gameResult = (s, []) := by
  have hk' : ¬ ev.keyNumber <
      (apps.getD s.appIndex default).macros.length := Nat.not_lt.mpr hk
  simp [stepKey, hng]
  intro hlt
  exact absurd hlt (by simpa [List.getD] using hk')

/-- Witness for C5: two empty-macro apps, index 0 active, key 0 out of
range of zero bindings. -/
theorem C5_witness :
    stepKey [default, default] ⟨0, none⟩ ⟨0, true⟩ "game_ended" =
      (⟨0, none⟩, []) :=
  C5_thm [default, default] ⟨0, none⟩ ⟨0, true⟩ "game_ended"
    (by decide) (by decide)

/-- C8: with the game profile active (last registry slot), a press of the
game key whose game run returns `"game_ended"` leaves the machine state
(profile index and remembered encoder position) unchanged and emits
exactly the game run followed by one display restore — rotation reset to
0 and the macro menu surface reinstalled — and one refresh
(`code.py` 114-123). -/
theorem C8_thm (apps : List AppData) (s : MachineState) (ev : KeyEvent)
    (hg : s.appIndex = apps.length - 1) (hp : ev.pressed = true)
    (hk : ev.keyNumber = GAME_KEY) :
    stepKey apps s ev "game_ended" =
      (s, [.runGame, .setRotation 0, .setRootGroupMenu, .refresh]) ∧
    (stepKey apps s ev "game_ended").2.count Action.refresh = 1 ∧
    (stepKey apps s ev "game_ended").2.count (Action.setRotation 0) = 1 ∧
    (stepKey apps s ev "game_ended").2.count Action.setRootGroupMenu = 1 := by
  have h : stepKey apps s ev "game_ended" =
      (s, [.runGame, .setRotation 0, .setRootGroupMenu, .refresh]) := by
    simp [stepKey, hg, hp, hk]
  refine ⟨h, ?_, ?_, ?_⟩ <;> rw [h] <;> rfl

/-- C6: every integer code of a `MediaCodes` list contributes the
contiguous pair `releaseMedia; pressMedia(code)` to the press edge, every
float contributes a delay, the instruction is inert on the release edge,
and `MediaCodes([7, 0.1, 8])` emits exactly
`releaseMedia; pressMedia 7; sleep 0.1; releaseMedia; pressMedia 8`
(`code.py` 146-152, 169-175). -/
theorem C6_thm (codes : List MediaItem) :
    (∀ c, MediaItem.code c ∈ codes →
      [Action.releaseMedia, Action.pressMedia c] <:+:
        pressItem (.mediaCodes codes)) ∧
    (∀ s, MediaItem.delay s ∈ codes →
      Action.sleep s ∈ pressItem (.mediaCodes codes)) ∧
    releaseItem (.mediaCodes codes) = [] ∧
    pressItem (.mediaCodes [.code 7, .delay (0.1 : Rat), .code 8]) =
      [.releaseMedia, .pressMedia 7, .sleep (0.1 : Rat),
       .releaseMedia, .pressMedia 8] := by
  refine ⟨?_, ?_, rfl, by norm_num [pressItem]⟩
  · intro c hc
    exact List.infix_of_mem_flatten
      (List.mem_map_of_mem
        (fun mc => match mc with
          | .code c => [Action.releaseMedia, Action.pressMedia c]
          | .delay s => [Action.sleep s]) hc)
  · intro s hs
    exact List.mem_flatMap.mpr ⟨.delay s, hs, by simp⟩

/-- Witness for C6 at the list `[code 7, delay 0.1, code 8]`. -/
theorem C6_witness :
    [Action.releaseMedia, Action.pressMedia 7] <:+:
      pressItem (.mediaCodes [.code 7, .delay (0.1 : Rat), .code 8]) :=
  (C6_thm [.code 7, .delay (0.1 : Rat), .code 8]).1 7 (by simp)

/-- Membership of a `play_file` action in the press actions of a `dict`
item: it occurs exactly when `tone` is absent and `play` is present
(`code.py` 160-167, else/elif). -/
lemma playFile_mem_mouse (m : MouseAction) (p : String) :
    Action.playFile p ∈ pressItem (.mouseAction m) ↔
      m.tone = none ∧ m.play = some p := by
  rcases m with ⟨b, x, y, w, t, pl⟩
  cases t <;> cases pl <;> cases b <;>
    simp only [pressItem] <;> (try split_ifs) <;> simp_all [eq_comm]

/-- Membership of `stop_tone` in the press actions of a `dict` item: it
occurs exactly when a `tone` field is present (`code.py` 160-165). -/
lemma stopTone_mem_mouse (m : MouseAction) :
    Action.stopTone ∈ pressItem (.mouseAction m) ↔ ∃ t, m.tone = some t := by
  rcases m with ⟨b, x, y, w, t, pl⟩
  cases t <;> cases pl <;> cases b <;>
    simp only [pressItem] <;> (try split_ifs) <;> simp_all

/-- Membership of `start_tone f` in the press actions of a `dict` item:
it occurs exactly when `tone = f` is present and positive
(`code.py` 160-163). -/
lemma startTone_mem_mouse (m : MouseAction) (f : Int) :
    Action.startTone f ∈ pressItem (.mouseAction m) ↔
      m.tone = some f ∧ 0 < f := by
  rcases m with ⟨b, x, y, w, t, pl⟩
  cases t <;> cases pl <;> cases b <;>
    simp only [pressItem] <;> (try split_ifs) <;> simp_all <;> omega

/-- C7: within one `dict` item on the press edge, `tone` and `play` are
mutually exclusive: a `play_file` implies `tone` was absent; a present
`tone` yields a tone action (stop, plus start when positive) and
forbids any `play_file`; `play` fires exactly when `tone` is absent and
`play` present; and no press of a single item yields both a tone action
and a play action (`code.py` 160-167). -/
theorem C7_thm (m : MouseAction) :
    (∀ p, Action.playFile p ∈ pressItem (.mouseAction m) →
       m.tone = none ∧ m.play = some p) ∧
    (∀ t, m.tone = some t →
       Action.stopTone ∈ pressItem (.mouseAction m) ∧
       (0 < t → Action.startTone t ∈ pressItem (.mouseAction m)) ∧
       ∀ p, Action.playFile p ∉ pressItem (.mouseAction m)) ∧
    (m.tone = none → ∀ p, m.play = some p →
       Action.playFile p ∈ pressItem (.mouseAction m)) ∧
    ¬((Action.stopTone ∈ pressItem (.mouseAction m) ∨
        ∃ f, Action.startTone f ∈ pressItem (.mouseAction m)) ∧
      ∃ p, Action.playFile p ∈ pressItem (.mouseAction m)) := by
  refine ⟨fun p hp => (playFile_mem_mouse m p).mp hp, ?_, ?_, ?_⟩
  · intro t ht
    refine ⟨(stopTone_mem_mouse m).mpr ⟨t, ht⟩,
      fun h0 => (startTone_mem_mouse m t).mpr ⟨ht, h0⟩, ?_⟩
    intro p hp
    rcases (playFile_mem_mouse m p).mp hp with ⟨hn, _⟩
    rw [ht] at hn
    exact Option.noConfusion hn
  · intro hn p hpl
    exact (playFile_mem_mouse m p).mpr ⟨hn, hpl⟩
  · rintro ⟨htone, ⟨p, hp⟩⟩
    rcases (playFile_mem_mouse m p).mp hp with ⟨hn, _⟩
    rcases htone with hs | ⟨f, hf⟩
    · rcases (stopTone_mem_mouse m).mp hs with ⟨t, ht⟩
      rw [hn] at ht
      exact Option.noConfusion ht
    · rcases (startTone_mem_mouse m f).mp hf with ⟨ht, _⟩
      rw [hn] at ht
      exact Option.noConfusion ht

/-- Witness for C7: with `tone = 5` and `play = "beep.wav"` both given,
no play action is emitted. -/
theorem C7_witness :
    Action.playFile "beep.wav" ∉
      pressItem (.mouseAction ⟨none, none, none, none, some 5,
        some "beep.wav"⟩) :=
  ((C7_thm ⟨none, none, none, none, some 5, some "beep.wav"⟩).2.1 5
    rfl).2.2 "beep.wav"

/-- Witness for C8: one-app registry (its only entry is the game slot),
press of key 11. -/
theorem C8_witness :
    stepKey [default] ⟨0, none⟩ ⟨11, true⟩ "game_ended" =
      (⟨0, none⟩, [.runGame, .setRotation 0, .setRootGroupMenu, .refresh]) ∧
    (stepKey [default] ⟨0, none⟩ ⟨11, true⟩ "game_ended").2.count
      Action.refresh = 1 ∧
    (stepKey [default] ⟨0, none⟩ ⟨11, true⟩ "game_ended").2.count
      (Action.setRotation 0) = 1 ∧
    (stepKey [default] ⟨0, none⟩ ⟨11, true⟩ "game_ended").2.count
      Action.setRootGroupMenu = 1 :=
  C8_thm [default] ⟨0, none⟩ ⟨11, true⟩ rfl rfl rfl

/-- Closed form of the load fold: from any accumulator, it appends the
payloads of the eligible files that import cleanly and one diagnostic
per eligible file that fails. -/
lemma loadApps_foldl (fs : List MacroFile)
    (acc : List AppData × List String) :
    fs.foldl loadStep acc =
      (acc.1 ++ (fs.filter eligible).filterMap (fun f => f.result.toOption),
       acc.2 ++ (fs.filter eligible).filterMap errDiag) := by
  induction fs generalizing acc with
  | nil => simp
  | cons f fs ih =>
      rw [List.foldl_cons, ih]
      by_cases he : eligible f = true
      · cases hr : f.result with
        | ok a =>
            simp [loadStep, he, hr, errDiag, Except.toOption,
              List.filter_cons]
        | error e =>
            simp [loadStep, he, hr, errDiag, Except.toOption,
              List.filter_cons]
      · simp [loadStep, he, List.filter_cons]

/-- C9: the profiles that load are exactly the payloads of the eligible
files whose import succeeds (malformed ones are skipped and the rest
continue to load); each eligible malformed file yields exactly one
diagnostic string; and startup ends in the intentional halt with the
on-screen message if and only if zero profiles loaded
(`code.py` 78-94). -/
theorem C9_thm (fs : List MacroFile) :
    (loadApps fs).1 =
      (fs.filter eligible).filterMap (fun f => f.result.toOption) ∧
    (loadApps fs).2 = (fs.filter eligible).filterMap errDiag ∧
    (startup fs = .halted "NO MACRO FILES FOUND" ↔ (loadApps fs).1 = []) := by
  refine ⟨?_, ?_, ?_⟩
  · rw [loadApps, loadApps_foldl]; simp
  · rw [loadApps, loadApps_foldl]; simp
  · constructor
    · intro hs
      by_contra hne
      have hni : ¬ (loadApps fs).1.isEmpty = true := by
        simpa [List.isEmpty_iff] using hne
      simp only [startup, if_neg hni] at hs
      exact StartupResult.noConfusion hs
    · intro he
      have hi : (loadApps fs).1.isEmpty = true := by
        simp [List.isEmpty_iff, he]
      simp only [startup, if_pos hi]

/-- The display part of `App.switch` (banner and twelve key slots,
`code.py` 32-43) never contains a refresh. -/
lemma refresh_not_mem_switch_display (a : AppData) :
    Action.refresh ∉
      ([Action.setBannerText a.name,
        Action.setBannerFill (if a.name ≠ "" then 0xFFFFFF else 0x000000)] ++
       ((List.range 12).flatMap fun i =>
         if i < a.macros.length then
           [Action.setPixel i (a.macros.getD i default).color,
            Action.setLabel i (a.macros.getD i default).label]
         else
           [Action.setPixel i 0, Action.setLabel i ""])) := by
  simp only [List.mem_append, List.mem_flatMap, List.mem_cons,
    List.mem_singleton, not_or, not_exists, not_and]
  refine ⟨⟨by simp, by simp, by simp⟩, ?_⟩
  intro i _
  split_ifs <;> simp

/-- C10: `App.switch` is, for every app, a display part followed by the
fixed tail `release_all; consumer_control.release; mouse.release_all;
stop_tone; pixels.show; display.refresh` — so every latched key, media
code, mouse button and tone is released before the refresh, on every
profile switch (`code.py` 44-49). -/
theorem C10_thm (a : AppData) :
    ∃ pre, switchActions a =
        pre ++ [Action.releaseAllKeys, Action.releaseMedia,
                Action.releaseAllMouse, Action.stopTone,
                Action.pixelsShow, Action.refresh] ∧
      Action.refresh ∉ pre := by
  refine ⟨[Action.setBannerText a.name,
    Action.setBannerFill (if a.name ≠ "" then 0xFFFFFF else 0x000000)] ++
    ((List.range 12).flatMap fun i =>
      if i < a.macros.length then
        [Action.setPixel i (a.macros.getD i default).color,
         Action.setLabel i (a.macros.getD i default).label]
      else
        [Action.setPixel i 0, Action.setLabel i ""]), rfl,
    refresh_not_mem_switch_display a⟩

end Macropad
